import Mathlib

/-!
Verification of the utilizap-app transfer front-end core.

Shallow embedding of the receipt store, amount codec, send lifecycle and
indexer reconciliation logic of `src/app/page.tsx` and
`src/app/lib/transfer.ts`.  The file `transfer.ts` contains two revisions
of `uiToBaseUnits` and `sendUsdcDevnet`; the embedding follows the final
revision (the one paired with the receipt-bearing revision of `page.tsx`,
which all claims cite): `uiToBaseUnits` at lines 132-143 and
`sendUsdcDevnet` at lines 145-218.

JavaScript numbers are modelled exactly over the rationals; machine
floating point never matters for the claims settled here, which only
exercise comparisons, negation, absolute value and sums of small decimal
values.
-/

/-- JavaScript string-valued `a || b`: the left operand unless it is the
empty string (falsy). -/
def jsOrStr (a b : String) : String := if a = "" then b else a

/-- Truthiness of an optional JavaScript string (`undefined` or the empty
string are falsy). -/
def jsTruthyStr : Option String → Bool
  | none => false
  | some s => s ≠ ""

/-- Characters removed by `String.prototype.trim` (the ASCII whitespace
actually occurring in this application's inputs). -/
def jsTrimChars (l : List Char) : List Char :=
  ((l.dropWhile Char.isWhitespace).reverse.dropWhile Char.isWhitespace).reverse

/-- `s.trim()` on the character-list view of a JavaScript string. -/
def jsTrim (s : String) : String :=
  ⟨jsTrimChars s.data⟩

/-- `s.toLowerCase()` on the character-list view of a JavaScript string. -/
def jsToLower (s : String) : String :=
  ⟨s.data.map Char.toLower⟩

/- ## AmountCodec (`uiToBaseUnits`, transfer.ts lines 132-143) -/

/-- Splits a character list at every dot, the model of
`String.prototype.split(".")`. -/
def splitDotAll : List Char → List (List Char)
  | [] => [[]]
  | c :: rest =>
    let r := splitDotAll rest
    if c = '.' then [] :: r
    else
      match r with
      | h :: t => (c :: h) :: t
      | [] => [[c]]

/-- The test `/^\d+(\.\d+)?$/.test(s)`: digits, optionally a dot followed
by digits. -/
def matchesAmount (l : List Char) : Bool :=
  match splitDotAll l with
  | [w] => decide (w ≠ []) && w.all Char.isDigit
  | [w, f] => decide (w ≠ []) && decide (f ≠ []) && w.all Char.isDigit && f.all Char.isDigit
  | _ => false

/-- Numeric value of a decimal digit string, the model of `BigInt` on a
digit-only string (and of `BigInt("0")` on the empty one, matching the
`|| "0"` fallbacks in the source). -/
def digitsVal (l : List Char) : Nat :=
  l.foldl (fun a c => 10 * a + (c.toNat - 48)) 0

/-- `uiToBaseUnits` (transfer.ts lines 132-143, the final revision): trim,
regex-validate, split at the dot, right-pad the fraction with zeros to
`decimals` digits and truncate beyond, then combine exactly.  The final
revision has no positivity check, so `"0"` yields `ok 0`. -/
def uiToBaseUnits (amountUi : String) (decimals : Nat) : Except String Nat :=
  let s := jsTrimChars amountUi.data
  if matchesAmount s then
    let parts := splitDotAll s
    let whole := parts.headD []
    let frac := (parts.drop 1).headD []
    let fracPadded := (frac ++ List.replicate decimals '0').take decimals
    .ok (digitsVal whole * 10 ^ decimals + digitsVal fracPadded)
  else
    .error "Invalid amount"

/-- Modelled from the spec: the exact rational value `parseDecimal(s)` of a
string already known to match `^\d+(\.\d+)?$` — whole part plus fractional
part over the corresponding power of ten.  Used only to compare
`uiToBaseUnits` against the specified `round_down(parseDecimal(s) * 10^d)`. -/
def parseDecimalQ (l : List Char) : ℚ :=
  let parts := splitDotAll l
  let whole := parts.headD []
  let frac := (parts.drop 1).headD []
  (digitsVal whole : ℚ) + (digitsVal frac : ℚ) / (10 : ℚ) ^ frac.length

/- ## Receipt data model (`page.tsx` lines 307-328) -/

inductive TxReceiptStatus
  | submitted
  | confirming
  | confirmed
  | failed
deriving DecidableEq, Repr

inductive TxReceiptDirection
  | sent
  | received
deriving DecidableEq, Repr

inductive Cluster
  | devnet
  | mainnetBeta
deriving DecidableEq, Repr

structure TxReceipt where
  id : String
  sig : Option String
  createdAt : ℚ
  cluster : Cluster
  status : TxReceiptStatus
  direction : TxReceiptDirection
  amountUi : String
  tokenSymbol : String
  fromAddr : String
  toAddr : String
  explorerUrl : Option String
  note : Option String
deriving DecidableEq, Repr

/-- `upsertReceipt` (page.tsx lines 410-423) acting on the persisted list:
the incoming record is put first and every prior record with its id is
filtered out.  Both source branches produce exactly this list. -/
def upsertReceipt (next : TxReceipt) (prev : List TxReceipt) : List TxReceipt :=
  next :: prev.filter (fun r => r.id ≠ next.id)

/-- The record a reader finds for an id: `Array.prototype.find`-style first
match in the persisted order. -/
def lookupStored (store : List TxReceipt) (id : String) : Option TxReceipt :=
  store.find? (fun r => r.id = id)

/- ## Persisted storage model (`page.tsx` lines 330-408) -/

/-- JSON values as produced by `JSON.parse`. -/
inductive JsValue
  | null
  | bool (b : Bool)
  | num (q : ℚ)
  | str (s : String)
  | arr (xs : List JsValue)
  | obj (fields : List (String × JsValue))

/-- Last-wins key lookup, the semantics `JSON.parse` gives duplicate
object keys. -/
def lookupLast : List (String × JsValue) → String → Option JsValue
  | [], _ => none
  | (k', v) :: rest, k =>
    match lookupLast rest k with
    | some r => some r
    | none => if k' = k then some v else none

/-- JavaScript property read `v.k`: `none` models `undefined` (absent key,
or a non-object base). -/
def getProp : JsValue → String → Option JsValue
  | .obj fs, k => lookupLast fs k
  | _, _ => none

/-- JavaScript truthiness of a parsed JSON value. -/
def jsTruthy : JsValue → Bool
  | .null => false
  | .bool b => b
  | .num q => q ≠ 0
  | .str s => s ≠ ""
  | .arr _ => true
  | .obj _ => true

/-- `typeof x === "string"` on a property read. -/
def propIsStr (o : Option JsValue) : Bool :=
  match o with
  | some (.str _) => true
  | _ => false

/-- `x === null` on a property read. -/
def propIsNull (o : Option JsValue) : Bool :=
  match o with
  | some .null => true
  | _ => false

/-- `x === "lit"` on a property read: the value is exactly the given
string. -/
def propStrIs (o : Option JsValue) (lit : String) : Bool :=
  match o with
  | some (.str s) => s = lit
  | _ => false

/-- `typeof x === "number"` on a property read. -/
def propIsNum (o : Option JsValue) : Bool :=
  match o with
  | some (.num _) => true
  | _ => false

/-- String extracted from a property read, with a default (total helper for
the normalisation step, which the source only reaches on validated
entries). -/
def propStrD (o : Option JsValue) (d : String) : String :=
  match o with
  | some (.str s) => s
  | _ => d

/-- The per-entry filter of `safeParseReceipts` (page.tsx lines 348-364):
every field check of the source conjunction, in order.  The `direction`
field is deliberately absent from it. -/
def receiptEntryValid (r : JsValue) : Bool :=
  jsTruthy r &&
  propIsStr (getProp r "id") &&
  propIsNum (getProp r "createdAt") &&
  (propIsNull (getProp r "sig") || propIsStr (getProp r "sig")) &&
  (propStrIs (getProp r "cluster") "devnet" ||
    propStrIs (getProp r "cluster") "mainnet-beta") &&
  (propStrIs (getProp r "status") "submitted" ||
    propStrIs (getProp r "status") "confirming" ||
    propStrIs (getProp r "status") "confirmed" ||
    propStrIs (getProp r "status") "failed") &&
  propIsStr (getProp r "amountUi") &&
  propStrIs (getProp r "tokenSymbol") "USDC" &&
  propIsStr (getProp r "from") &&
  propIsStr (getProp r "to")

/-- The map step of `safeParseReceipts` (page.tsx lines 365-385):
normalises a validated entry into a `TxReceipt`; `direction` defaults to
`sent` unless the field is exactly `"sent"` or `"received"`. -/
def normalizeReceipt (r : JsValue) : TxReceipt :=
  { id := propStrD (getProp r "id") ""
  , sig := match getProp r "sig" with
      | some (.str s) => some s
      | _ => none
  , createdAt := match getProp r "createdAt" with
      | some (.num q) => q
      | _ => 0
  , cluster := if propStrIs (getProp r "cluster") "mainnet-beta" then .mainnetBeta else .devnet
  , status := match getProp r "status" with
      | some (.str "confirming") => .confirming
      | some (.str "confirmed") => .confirmed
      | some (.str "failed") => .failed
      | _ => .submitted
  , direction :=
      if propStrIs (getProp r "direction") "received" then .received
      else if propStrIs (getProp r "direction") "sent" then .sent
      else .sent
  , amountUi := jsTrim (propStrD (getProp r "amountUi") "")
  , tokenSymbol := "USDC"
  , fromAddr := jsTrim (propStrD (getProp r "from") "")
  , toAddr := jsTrim (propStrD (getProp r "to") "")
  , explorerUrl := match getProp r "explorerUrl" with
      | some (.str s) => some s
      | _ => none
  , note := match getProp r "note" with
      | some (.str s) => some s
      | _ => none }

/-- The raw persisted string as seen by `safeParseReceipts`: absent or
empty (`!raw`), a string `JSON.parse` throws on, or a string parsing to a
JSON value. -/
inductive RawStorage
  | absent
  | malformed
  | parsed (v : JsValue)

/-- `safeParseReceipts` (page.tsx lines 342-389): empty result for absent
or unparseable or non-array storage, otherwise filter then map. -/
def safeParseReceipts : RawStorage → List TxReceipt
  | .absent => []
  | .malformed => []
  | .parsed v =>
    match v with
    | .arr xs => (xs.filter receiptEntryValid).map normalizeReceipt
    | _ => []

/-- The storage read inside `loadReceipts`: `localStorage.getItem` may
itself throw (caught by the surrounding try), else yields the raw value. -/
inductive StorageRead
  | getThrew
  | raw (r : RawStorage)

/-- `loadReceipts` (page.tsx lines 391-399): any storage exception falls
back to the empty list, otherwise defer to `safeParseReceipts`. -/
def loadReceipts : StorageRead → List TxReceipt
  | .getThrew => []
  | .raw r => safeParseReceipts r

/- ## IndexerReconciler (`syncHeliusUsdcReceipts`, page.tsx lines 880-1015) -/

/-- The supported devnet USDC mint (page.tsx lines 280-281). -/
def USDC_MINT_DEVNET : String := "4zMMC9srt5Ri5X14GAgXhaHii3GnPAEERYPJgZJDncDU"

/-- One token-transfer leg of an indexer transaction summary.  A field
holding the empty string models a missing (falsy) account alias.  `amount`
is the numeric value the multi-shape coercion at page.tsx lines 913-928
extracts from `tokenAmount`/`amount` (number, numeric string, or
`uiAmount`-style object); the coercion itself is pure numeric conversion
and is represented by the already-extracted exact value. -/
structure TokenLeg where
  mint : String
  amount : ℚ
  fromUserAccount : String
  fromAccount : String
  fromTokenAccount : String
  toUserAccount : String
  toAccount : String
  toTokenAccount : String
deriving DecidableEq, Repr

/-- `t?.fromUserAccount || t?.fromAccount || t?.fromTokenAccount || ""`. -/
def fromAnyRaw (t : TokenLeg) : String :=
  jsOrStr t.fromUserAccount (jsOrStr t.fromAccount t.fromTokenAccount)

/-- `t?.toUserAccount || t?.toAccount || t?.toTokenAccount || ""`. -/
def toAnyRaw (t : TokenLeg) : String :=
  jsOrStr t.toUserAccount (jsOrStr t.toAccount t.toTokenAccount)

/-- An indexer transaction summary as consumed by the sync loop.
`signature = ""` models a falsy/absent signature; `errorFlag` is the
result of `heliusHasError` (page.tsx lines 487-490), which probes the
`transactionError`/`err`/`meta.err` shapes. -/
structure HeliusTx where
  signature : String
  timestamp : Option ℚ
  blockTime : Option ℚ
  errorFlag : Bool
  tokenTransfers : List TokenLeg
deriving DecidableEq, Repr

/-- Accumulator of the per-transaction leg loop (page.tsx lines 903-908). -/
structure SyncState where
  net : ℚ
  involved : Bool
  bestFrom : String
  bestTo : String
deriving DecidableEq, Repr

/-- One iteration of the leg loop (page.tsx lines 910-965), faithful to
the source: skip on mint mismatch or non-positive amount; a leg whose
lowercased destination alias equals the lowercased wallet adds, else one
whose source alias matches subtracts, and a leg matching neither side
falls into the `else` branch that marks the transaction involved and adds
the amount as if inbound. -/
def legStep (walletAddr walletLower : String) (st : SyncState) (t : TokenLeg) : SyncState :=
  if t.mint = "" ∨ t.mint ≠ USDC_MINT_DEVNET then st
  else if t.amount ≤ 0 then st
  else
    let fromAny := jsToLower (fromAnyRaw t)
    let toAny := jsToLower (toAnyRaw t)
    let looksOut := fromAny = walletLower
    let looksIn := toAny = walletLower
    let st1 := if looksIn ∨ looksOut then { st with involved := true } else st
    if looksIn then
      { st1 with net := st1.net + t.amount, bestFrom := fromAnyRaw t, bestTo := walletAddr }
    else if looksOut then
      { st1 with net := st1.net - t.amount, bestFrom := walletAddr, bestTo := toAnyRaw t }
    else
      { st1 with
          involved := true
          net := st1.net + t.amount
          bestFrom := fromAnyRaw t
          bestTo := walletAddr }

/-- `Math.abs` on an exact JavaScript number. -/
def mathAbs (q : ℚ) : ℚ := if q < 0 then -q else q

/-- Decimal digits of the proper fraction `rem / d`, most significant
first, produced by long division and bounded by fuel. -/
def fracDigits : Nat → Nat → Nat → String
  | 0, _, _ => ""
  | f + 1, rem, d =>
    if rem = 0 then ""
    else Nat.repr (rem * 10 / d) ++ fracDigits f (rem * 10 % d) d

/-- Models JavaScript `String(x)` on the exact finite decimal numbers this
code produces (integral and short-decimal amounts), by long division on
the reduced numerator and denominator. -/
def jsNumToString (q : ℚ) : String :=
  let sign := if q.num < 0 then "-" else ""
  let n := q.num.natAbs
  let d := q.den
  let whole := n / d
  let rem := n % d
  if rem = 0 then sign ++ Nat.repr whole
  else sign ++ Nat.repr whole ++ "." ++ fracDigits 17 rem d

/-- The per-transaction body of `syncHeliusUsdcReceipts` (page.tsx lines
896-996): `none` models `continue` (the transaction contributes no
receipt); otherwise the receipt placed into `bySig`. -/
def heliusTxToReceipt (walletAddr : String) (now : ℚ) (tx : HeliusTx) : Option TxReceipt :=
  if tx.signature = "" then none
  else if tx.tokenTransfers = [] then none
  else
    let walletLower := jsToLower walletAddr
    let st := tx.tokenTransfers.foldl (legStep walletAddr walletLower) ⟨0, false, "", ""⟩
    if st.involved = false then none
    else
      let direction : TxReceiptDirection := if 0 ≤ st.net then .received else .sent
      let amountAbs := mathAbs st.net
      let tsSeconds : Option ℚ := tx.timestamp.or tx.blockTime
      let createdAt : ℚ :=
        match tsSeconds with
        | some t => if 0 < t then t * 1000 else now
        | none => now
      let status : TxReceiptStatus := if tx.errorFlag then .failed else .confirmed
      some
        { id := "h_" ++ tx.signature
        , sig := some tx.signature
        , createdAt := createdAt
        , cluster := .devnet
        , status := status
        , direction := direction
        , amountUi := jsNumToString amountAbs
        , tokenSymbol := "USDC"
        , fromAddr := if direction = .received then st.bestFrom else walletAddr
        , toAddr := if direction = .received then walletAddr else st.bestTo
        , explorerUrl := some ("https://explorer.solana.com/tx/" ++ tx.signature ++ "?cluster=devnet")
        , note := none }

/-- Lookup in the `existingById` map (page.tsx line 1001): a JavaScript
`Map` built from the list keeps the last record per id. -/
def mapLookupReceipt (l : List TxReceipt) (id : String) : Option TxReceipt :=
  l.foldl (fun acc r => if r.id = id then some r else acc) none

/-- One iteration of the sync merge loop (page.tsx lines 1003-1007): keep
a truthy (non-empty) prior note on the incoming record, then upsert. -/
def syncMergeReceipt (existing : List TxReceipt) (r : TxReceipt) : List TxReceipt :=
  let prev := mapLookupReceipt existing r.id
  let merged :=
    match prev with
    | some p => if jsTruthyStr p.note then { r with note := p.note } else r
    | none => r
  upsertReceipt merged existing

/-- Modelled from the spec wording of C6: whether a leg is a matching leg
of the supported mint with positive parsed amount. -/
def specLegMatches (t : TokenLeg) : Bool :=
  t.mint = USDC_MINT_DEVNET && decide (0 < t.amount)

/-- Modelled from the spec wording of C6: the signed net over matching
legs — destination equal to the wallet adds, source equal to the wallet
subtracts, others contribute nothing. -/
def specNetLegs (walletLower : String) (legs : List TokenLeg) : ℚ :=
  (legs.map (fun t =>
    if specLegMatches t then
      if jsToLower (toAnyRaw t) = walletLower then t.amount
      else if jsToLower (fromAnyRaw t) = walletLower then -t.amount
      else 0
    else 0)).sum

/-- Sum of the amounts of all matching legs (used to describe the fallback
behaviour on transactions touching neither side of the wallet). -/
def sumMatchingAmounts (legs : List TokenLeg) : ℚ :=
  (legs.map (fun t => if specLegMatches t then t.amount else 0)).sum

/- ## TransferExecutor and TransactionLifecycleController
   (`sendUsdcDevnet`, transfer.ts lines 145-218; `onSendUsdc`, page.tsx
   lines 1068-1152) -/

/-- Errors a send attempt can surface, one per throw site on the path. -/
inductive SendError
  | invalidAmount
  | recipientInvalid
  | senderAccountMissing
  | blockhashFailed
  | signingRejected
  | sendRawFailed
deriving DecidableEq, Repr

/-- The successful return of `sendUsdcDevnet`. -/
structure SendOk where
  signature : String
  blockhash : String
  lastValidBlockHeight : Nat
deriving DecidableEq, Repr

/-- The external world a single send attempt interacts with: whether
`new PublicKey(recipient)` parses, whether the sender and recipient
associated token accounts exist, the latest-blockhash query result, the
outcome of the wallet signature request, and the raw-submission result
(`none` models a throw). -/
structure SendEnv where
  recipientParseOk : Bool
  senderAtaExists : Bool
  recipientAtaExists : Bool
  latestBlockhash : Option (String × Nat)
  signApproved : Bool
  sendRawResult : Option String
deriving DecidableEq, Repr

/-- Outcome of `connection.confirmTransaction`: it threw, it returned a
value whose `value.err` is set, or it returned success. -/
inductive ConfirmOutcome
  | threw
  | errPresent
  | okNoErr
deriving DecidableEq, Repr

/-- Externally visible events of one send attempt, in order: store writes
and the wallet signature request. -/
inductive Event
  | persist (r : TxReceipt)
  | signRequest
deriving DecidableEq, Repr

/-- `sendUsdcDevnet` (transfer.ts lines 145-218, the final revision):
convert the amount, resolve the associated token accounts, require the
sender account to exist, check the recipient account (adding a creation
instruction is a pure build step with no observable event), fetch the
blockhash, request the wallet signature, submit.  Returns the result and
the events emitted, in order. -/
def sendUsdcDevnet (amountUi : String) (env : SendEnv) :
    Except SendError SendOk × List Event :=
  match uiToBaseUnits amountUi 6 with
  | .error _ => (.error .invalidAmount, [])
  | .ok _amountBase =>
    if env.senderAtaExists = false then (.error .senderAccountMissing, [])
    else
      match env.latestBlockhash with
      | none => (.error .blockhashFailed, [])
      | some bh =>
        if env.signApproved = false then (.error .signingRejected, [.signRequest])
        else
          match env.sendRawResult with
          | none => (.error .sendRawFailed, [.signRequest])
          | some sig => (.ok ⟨sig, bh.1, bh.2⟩, [.signRequest])

/-- Inputs of one `onSendUsdc` invocation: the connected wallet address,
the raw recipient, amount and note fields, the freshly generated receipt
id, and the wall clock. -/
structure SendInputs where
  fromAddr : String
  recipient : String
  amount : String
  note : String
  receiptId : String
  now : ℚ
deriving DecidableEq, Repr

/-- The draft receipt `onSendUsdc` builds first (page.tsx lines 1074-1088). -/
def mkDraft (inp : SendInputs) : TxReceipt :=
  { id := inp.receiptId
  , sig := none
  , createdAt := inp.now
  , cluster := .devnet
  , status := .submitted
  , direction := .sent
  , amountUi := jsTrim inp.amount
  , tokenSymbol := "USDC"
  , fromAddr := inp.fromAddr
  , toAddr := jsTrim inp.recipient
  , explorerUrl := none
  , note := if jsTrim inp.note = "" then none else some (jsTrim inp.note) }

/-- Explorer link template (page.tsx line 1115). -/
def explorerUrlOf (sig : String) : String :=
  "https://explorer.solana.com/tx/" ++ sig ++ "?cluster=devnet"

/-- `onSendUsdc` (page.tsx lines 1068-1152) as its ordered event trace:
persist the draft, evaluate `new PublicKey(recipient)` and call
`sendUsdcDevnet`; on success persist the confirming record carrying the
signature and explorer link, then confirm; on success persist the
confirmed record; any thrown error lands in the catch block, which
persists the draft with status `failed`. -/
def onSendUsdc (inp : SendInputs) (env : SendEnv) (cenv : ConfirmOutcome) : List Event :=
  let draft := mkDraft inp
  let pre : List Event := [.persist draft]
  let sent :=
    if env.recipientParseOk = false then ((.error .recipientInvalid : Except SendError SendOk), ([] : List Event))
    else sendUsdcDevnet inp.amount env
  match sent with
  | (.error _, evs) => pre ++ evs ++ [.persist { draft with status := .failed }]
  | (.ok ok, evs) =>
    let withSig : TxReceipt :=
      { draft with
          sig := some ok.signature
          status := .confirming
          explorerUrl := some (explorerUrlOf ok.signature) }
    let t2 := pre ++ evs ++ [.persist withSig]
    match cenv with
    | .threw => t2 ++ [.persist { draft with status := .failed }]
    | .errPresent => t2 ++ [.persist { draft with status := .failed }]
    | .okNoErr => t2 ++ [.persist { withSig with status := .confirmed }]

/-- The statuses persisted for a given receipt id along a trace, in
order. -/
def persistedStatuses (tr : List Event) (id : String) : List TxReceiptStatus :=
  tr.filterMap (fun e =>
    match e with
    | .persist r => if r.id = id then some r.status else none
    | .signRequest => none)

/-- Replays the store writes of a trace over an initial persisted list. -/
def applyTrace (tr : List Event) (store : List TxReceipt) : List TxReceipt :=
  tr.foldl (fun st e =>
    match e with
    | .persist r => upsertReceipt r st
    | .signRequest => st) store

/-- Whether a status is terminal for a send attempt. -/
def isTerminalStatus : TxReceiptStatus → Bool
  | .confirmed => true
  | .failed => true
  | _ => false

/-- A status list is an allowed lifecycle sequence when it is a prefix of
one of the three sequences of the claim. -/
def allowedStatusSeq (s : List TxReceiptStatus) : Bool :=
  s.isPrefixOf [.submitted, .confirming, .confirmed] ||
  s.isPrefixOf [.submitted, .confirming, .failed] ||
  s.isPrefixOf [.submitted, .failed]

/-- No entry of the list follows a terminal status. -/
def noStatusAfterTerminal : List TxReceiptStatus → Bool
  | [] => true
  | st :: rest => (if isTerminalStatus st then rest.isEmpty else true) && noStatusAfterTerminal rest

/-- The confirming record `onSendUsdc` persists once the signature is
known (page.tsx lines 1111-1116). -/
def withSigRec (inp : SendInputs) (s : String) : TxReceipt :=
  { mkDraft inp with
      sig := some s
      status := .confirming
      explorerUrl := some (explorerUrlOf s) }

/- ## Concrete sample data used by counterexamples and witnesses -/

/-- An existing stored receipt with id `X` and note `"lunch"`. -/
def rLunch : TxReceipt :=
  { id := "X", sig := some "sigX", createdAt := 0, cluster := .devnet
  , status := .confirmed, direction := .sent, amountUi := "1"
  , tokenSymbol := "USDC", fromAddr := "a", toAddr := "b"
  , explorerUrl := none, note := some "lunch" }

/-- An incoming record with the same id `X` and no note. -/
def rIncoming : TxReceipt :=
  { id := "X", sig := some "sigX", createdAt := 5, cluster := .devnet
  , status := .confirmed, direction := .received, amountUi := "2"
  , tokenSymbol := "USDC", fromAddr := "c", toAddr := "a"
  , explorerUrl := none, note := none }

/-- A matching USDC leg between two parties, neither of them the wallet
`"w"`. -/
def legAB : TokenLeg :=
  { mint := USDC_MINT_DEVNET, amount := 5
  , fromUserAccount := "a", fromAccount := "", fromTokenAccount := ""
  , toUserAccount := "b", toAccount := "", toTokenAccount := "" }

/-- A transaction whose only matching leg touches neither side of the
wallet. -/
def txAB : HeliusTx :=
  { signature := "s1", timestamp := none, blockTime := none
  , errorFlag := false, tokenTransfers := [legAB] }

/-- A 10-unit leg from the wallet `"w"` to a counterparty `"c"`. -/
def legWtoC : TokenLeg :=
  { mint := USDC_MINT_DEVNET, amount := 10
  , fromUserAccount := "w", fromAccount := "", fromTokenAccount := ""
  , toUserAccount := "c", toAccount := "", toTokenAccount := "" }

/-- A 3-unit leg from the counterparty `"c"` back to the wallet `"w"`. -/
def legCtoW : TokenLeg :=
  { mint := USDC_MINT_DEVNET, amount := 3
  , fromUserAccount := "c", fromAccount := "", fromTokenAccount := ""
  , toUserAccount := "w", toAccount := "", toTokenAccount := "" }

/-- The two-leg transaction of end-to-end scenario 3. -/
def txWC : HeliusTx :=
  { signature := "s2", timestamp := none, blockTime := none
  , errorFlag := false, tokenTransfers := [legWtoC, legCtoW] }

/-- A persisted entry that fails the per-field validation (a bare number
has no `id` string). -/
def badEntry : JsValue := .num 5

/-- A well-formed persisted entry with no `direction` field. -/
def goodEntry : JsValue :=
  .obj [("id", .str "r1"), ("createdAt", .num 5), ("sig", .null),
        ("cluster", .str "devnet"), ("status", .str "confirmed"),
        ("amountUi", .str "1.5"), ("tokenSymbol", .str "USDC"),
        ("from", .str "a"), ("to", .str "b")]

/-- Send inputs used by closed witnesses. -/
def inpEx : SendInputs :=
  { fromAddr := "walletA", recipient := "walletB", amount := "2.5"
  , note := "", receiptId := "local1", now := 1000 }

/-- An environment whose sender has no associated token account. -/
def envNoAta : SendEnv :=
  { recipientParseOk := true, senderAtaExists := false
  , recipientAtaExists := true, latestBlockhash := some ("bh", 5)
  , signApproved := true, sendRawResult := some "sg" }

/-- An environment where signing and submission succeed. -/
def envOk : SendEnv :=
  { recipientParseOk := true, senderAtaExists := true
  , recipientAtaExists := true, latestBlockhash := some ("bh", 5)
  , signApproved := true, sendRawResult := some "sg" }

/-- An environment where the user rejects the wallet signature. -/
def envRejected : SendEnv :=
  { recipientParseOk := true, senderAtaExists := true
  , recipientAtaExists := true, latestBlockhash := some ("bh", 5)
  , signApproved := false, sendRawResult := some "sg" }

/- ## Claim C1 -/

/-- C1 counterexample: `upsertReceipt` itself does not preserve the prior
note — upserting a record with id `X` and no note over an existing record
with id `X` and note `"lunch"` leaves the stored record with no note, not
with note `"lunch"`. -/
theorem upsertReceipt_drops_note_cex :
    rIncoming.id = rLunch.id ∧ rIncoming.note = none ∧ rLunch.note = some "lunch" ∧
    lookupStored (upsertReceipt rIncoming [rLunch]) "X" = some rIncoming ∧
    (lookupStored (upsertReceipt rIncoming [rLunch]) "X").map TxReceipt.note ≠
      some (some "lunch") := by
  decide

/-- C1 amended: `upsertReceipt` replaces the record with the incoming id
entirely (the stored record is exactly the incoming one); the note
preservation happens in the sync merge step before upserting — when the
incoming record carries no note and the prior record with that id has a
truthy (non-empty) note, the record stored by `syncMergeReceipt` carries
the prior note. -/
theorem upsert_replaces_and_sync_merge_preserves_note
    (store : List TxReceipt) (next prior : TxReceipt)
    (hfind : mapLookupReceipt store next.id = some prior)
    (hnote : jsTruthyStr prior.note = true)
    (hnone : next.note = none) :
    (∀ (n : TxReceipt) (s : List TxReceipt), lookupStored (upsertReceipt n s) n.id = some n) ∧
    lookupStored (syncMergeReceipt store next) next.id =
      some { next with note := prior.note } := by
  constructor
  · intro n s
    simp [lookupStored, upsertReceipt]
  · simp [syncMergeReceipt, hfind, hnote, lookupStored, upsertReceipt]

/-- C1 witness: the sync-path upsert of the no-note incoming record over
the stored `"lunch"` record keeps the note `"lunch"`. -/
theorem upsert_replaces_and_sync_merge_preserves_note_witness :
    lookupStored (syncMergeReceipt [rLunch] rIncoming) rIncoming.id =
      some { rIncoming with note := some "lunch" } :=
  (upsert_replaces_and_sync_merge_preserves_note [rLunch] rIncoming rLunch
    (by decide) (by decide) (by decide)).2

/- ## Lifecycle trace lemmas -/

/-- `sendUsdcDevnet` either fails before the signature request (no events),
fails at or after it (one `signRequest` event), or succeeds after exactly
one `signRequest` event. -/
theorem sendUsdcDevnet_shape (a : String) (env : SendEnv) :
    (∃ e, sendUsdcDevnet a env = (.error e, [])) ∨
    (∃ e, sendUsdcDevnet a env = (.error e, [.signRequest])) ∨
    (∃ ok, sendUsdcDevnet a env = (.ok ok, [.signRequest])) := by
  rcases env with ⟨rp, sAta, rAta, bh, sg, sr⟩
  unfold sendUsdcDevnet
  rcases h : uiToBaseUnits a 6 with e | n <;>
    rcases sAta <;> rcases bh with _ | ⟨b, ht⟩ <;> rcases sg <;> rcases sr with _ | s <;>
    simp_all

/-- Every `onSendUsdc` trace starts by persisting the draft, optionally
requests a signature, and then either persists the failed record directly,
or persists the confirming record followed by the failed record, or
persists the confirming record followed by the confirmed record. -/
theorem onSendUsdc_shape (inp : SendInputs) (env : SendEnv) (cenv : ConfirmOutcome) :
    ∃ evs : List Event, (evs = [] ∨ evs = [.signRequest]) ∧
      (onSendUsdc inp env cenv =
          [.persist (mkDraft inp)] ++ evs ++ [.persist { mkDraft inp with status := .failed }] ∨
        (∃ s, onSendUsdc inp env cenv =
          [.persist (mkDraft inp)] ++ evs ++
            [.persist (withSigRec inp s), .persist { mkDraft inp with status := .failed }]) ∨
        (∃ s, onSendUsdc inp env cenv =
          [.persist (mkDraft inp)] ++ evs ++
            [.persist (withSigRec inp s),
             .persist { withSigRec inp s with status := .confirmed }])) := by
  unfold onSendUsdc
  by_cases hrp : env.recipientParseOk = false
  · refine ⟨[], Or.inl rfl, Or.inl ?_⟩
    simp [hrp]
  · simp only [hrp, if_neg, ite_false]
    rcases sendUsdcDevnet_shape inp.amount env with ⟨e, hs⟩ | ⟨e, hs⟩ | ⟨ok, hs⟩
    · refine ⟨[], Or.inl rfl, Or.inl ?_⟩
      simp [hs]
    · refine ⟨[.signRequest], Or.inr rfl, Or.inl ?_⟩
      simp [hs]
    · refine ⟨[.signRequest], Or.inr rfl, ?_⟩
      rcases cenv
      · exact Or.inr (Or.inl ⟨ok.signature, by simp [hs, withSigRec]⟩)
      · exact Or.inr (Or.inl ⟨ok.signature, by simp [hs, withSigRec]⟩)
      · exact Or.inr (Or.inr ⟨ok.signature, by simp [hs, withSigRec]⟩)

/-- The last element of a cons-append-singleton, the simp normal form of
the traces below. -/
theorem getLast_cons_append (x y : Event) (l : List Event) :
    (x :: (l ++ [y])).getLast? = some y := by
  rw [show x :: (l ++ [y]) = (x :: l) ++ [y] by simp]
  exact List.getLast?_concat _

/-- When the user rejects the signature, `sendUsdcDevnet` returns an
error. -/
theorem sendUsdcDevnet_error_of_rejected (a : String) (env : SendEnv)
    (h : env.signApproved = false) :
    ∃ e evs, sendUsdcDevnet a env = (.error e, evs) := by
  rcases env with ⟨rp, sAta, rAta, bh, sg, sr⟩
  unfold sendUsdcDevnet
  simp only at h
  subst h
  rcases h' : uiToBaseUnits a 6 with e | n <;> rcases sAta <;> rcases bh with _ | b <;>
    simp

/- ## Claim C2 -/

/-- C2: for every send attempt, whatever the environment does, the
sequence of statuses persisted for the attempt receipt id is a prefix of
`[submitted, confirming, confirmed]`, `[submitted, confirming, failed]`
or `[submitted, failed]`, and nothing is persisted for that id after a
terminal status. -/
theorem onSendUsdc_lifecycle_monotone (inp : SendInputs) (env : SendEnv)
    (cenv : ConfirmOutcome) :
    allowedStatusSeq (persistedStatuses (onSendUsdc inp env cenv) inp.receiptId) = true ∧
    noStatusAfterTerminal (persistedStatuses (onSendUsdc inp env cenv) inp.receiptId) = true := by
  rcases onSendUsdc_shape inp env cenv with ⟨evs, hevs, h | ⟨s, h⟩ | ⟨s, h⟩⟩ <;>
    rcases hevs with rfl | rfl <;>
    rw [h] <;>
    simp [persistedStatuses, mkDraft, withSigRec, allowedStatusSeq,
      noStatusAfterTerminal, isTerminalStatus, List.isPrefixOf]

/- ## Claim C7 -/

/-- C7: every execution of the send handler persists the draft receipt
(status `submitted`, signature `null`, direction `sent`) as its very first
event, strictly before any wallet signature request; and when the user
rejects the signature the trace ends by persisting the same id with
status `failed`. -/
theorem draft_persist_precedes_signature (inp : SendInputs) (env : SendEnv)
    (cenv : ConfirmOutcome) :
    (onSendUsdc inp env cenv).head? = some (.persist (mkDraft inp)) ∧
    (mkDraft inp).status = .submitted ∧ (mkDraft inp).sig = none ∧
    (mkDraft inp).direction = .sent ∧
    (∀ i, (onSendUsdc inp env cenv).get? i = some .signRequest → 0 < i) ∧
    (env.signApproved = false →
      (onSendUsdc inp env cenv).getLast? =
        some (.persist { mkDraft inp with status := .failed })) := by
  obtain ⟨evs, hevs, hcase⟩ := onSendUsdc_shape inp env cenv
  refine ⟨?_, rfl, rfl, rfl, ?_, ?_⟩
  · rcases hcase with h | ⟨s, h⟩ | ⟨s, h⟩ <;> rw [h] <;> rfl
  · intro i hi
    cases i with
    | zero =>
      rcases hcase with h | ⟨s, h⟩ | ⟨s, h⟩ <;> rw [h] at hi <;> simp at hi
    | succ n => exact Nat.succ_pos n
  · intro hsg
    obtain ⟨e, evs', hs⟩ := sendUsdcDevnet_error_of_rejected inp.amount env hsg
    unfold onSendUsdc
    by_cases hrp : env.recipientParseOk = false
    · simp [hrp, getLast_cons_append]
    · simp [hrp, hs, getLast_cons_append]

/-- C7 witness: with a rejecting wallet the trace starts with the draft
persist, its signature request sits strictly later, and the trace ends
with the failed persist for the same id. -/
theorem draft_persist_precedes_signature_witness :
    (0 < 1) ∧
    (onSendUsdc inpEx envRejected .threw).getLast? =
      some (.persist { mkDraft inpEx with status := .failed }) :=
  ⟨(draft_persist_precedes_signature inpEx envRejected .threw).2.2.2.2.1 1 (by decide),
   (draft_persist_precedes_signature inpEx envRejected .threw).2.2.2.2.2 rfl⟩

/- ## Claim C5 -/

/-- C5: when the sender has no associated token account, `sendUsdcDevnet`
fails with the sender-account-missing error (whenever the amount itself
converts), no wallet signature is ever requested during the attempt, and
no receipt of the attempt is persisted with status `confirming`. -/
theorem senderAta_required_before_signature (inp : SendInputs) (env : SendEnv)
    (cenv : ConfirmOutcome) (hata : env.senderAtaExists = false) :
    (∀ n, uiToBaseUnits inp.amount 6 = .ok n →
      (sendUsdcDevnet inp.amount env).1 = .error .senderAccountMissing) ∧
    Event.signRequest ∉ onSendUsdc inp env cenv ∧
    (∀ r, Event.persist r ∈ onSendUsdc inp env cenv → r.status ≠ .confirming) := by
  have hsend : ∃ e, sendUsdcDevnet inp.amount env = (.error e, []) := by
    unfold sendUsdcDevnet
    rcases h : uiToBaseUnits inp.amount 6 with e | n
    · exact ⟨.invalidAmount, rfl⟩
    · exact ⟨.senderAccountMissing, by simp [hata]⟩
  have htr : onSendUsdc inp env cenv =
      [.persist (mkDraft inp), .persist { mkDraft inp with status := .failed }] := by
    obtain ⟨e, hs⟩ := hsend
    unfold onSendUsdc
    by_cases hrp : env.recipientParseOk = false
    · simp [hrp]
    · simp [hrp, hs]
  refine ⟨?_, ?_, ?_⟩
  · intro n hn
    unfold sendUsdcDevnet
    simp [hn, hata]
  · rw [htr]
    simp
  · intro r hr
    rw [htr] at hr
    simp at hr
    rcases hr with rfl | rfl <;> simp [mkDraft]

/-- C5 witness: a concrete send against an environment with no sender
token account converts its amount, fails with the sender-account-missing
error, and never requests a signature. -/
theorem senderAta_required_before_signature_witness :
    uiToBaseUnits inpEx.amount 6 = .ok 2500000 ∧
    (sendUsdcDevnet inpEx.amount envNoAta).1 = .error .senderAccountMissing ∧
    Event.signRequest ∉ onSendUsdc inpEx envNoAta .threw := by
  have h := senderAta_required_before_signature inpEx envNoAta .threw rfl
  exact ⟨rfl, h.1 2500000 rfl, h.2.1⟩

/- ## Claim C9 -/

/-- C9: when submission succeeded (so the confirming record carrying the
signature and explorer link was persisted) and confirmation then fails,
the failed record persisted for the same id is built from the original
draft: the stored record for the id ends with status `failed`, signature
`null` and explorer link `null`, although the confirming record persisted
earlier in the same trace carried the signature. -/
theorem failed_record_reverts_signature (inp : SendInputs) (env : SendEnv)
    (cenv : ConfirmOutcome) (ok : SendOk) (store : List TxReceipt)
    (hrp : env.recipientParseOk = true)
    (hsend : sendUsdcDevnet inp.amount env = (.ok ok, [.signRequest]))
    (hc : cenv = .threw ∨ cenv = .errPresent) :
    Event.persist (withSigRec inp ok.signature) ∈ onSendUsdc inp env cenv ∧
    (withSigRec inp ok.signature).sig = some ok.signature ∧
    (withSigRec inp ok.signature).explorerUrl = some (explorerUrlOf ok.signature) ∧
    lookupStored (applyTrace (onSendUsdc inp env cenv) store) inp.receiptId =
      some { mkDraft inp with status := .failed } ∧
    ({ mkDraft inp with status := TxReceiptStatus.failed }).sig = none ∧
    ({ mkDraft inp with status := TxReceiptStatus.failed }).explorerUrl = none := by
  have htr : onSendUsdc inp env cenv =
      [.persist (mkDraft inp), .signRequest, .persist (withSigRec inp ok.signature),
        .persist { mkDraft inp with status := .failed }] := by
    unfold onSendUsdc
    rcases hc with rfl | rfl <;> simp [hrp, hsend, withSigRec]
  refine ⟨?_, rfl, rfl, ?_, rfl, rfl⟩
  · rw [htr]
    simp
  · rw [htr]
    simp [applyTrace, upsertReceipt, lookupStored, mkDraft]

/-- C9 witness: a concrete successful submission followed by a failed
confirmation leaves the stored record with no signature and no explorer
link, while the confirming record persisted in the trace carried the
signature `"sg"`. -/
theorem failed_record_reverts_signature_witness :
    Event.persist (withSigRec inpEx "sg") ∈ onSendUsdc inpEx envOk .errPresent ∧
    (withSigRec inpEx "sg").sig = some "sg" ∧
    lookupStored (applyTrace (onSendUsdc inpEx envOk .errPresent) []) inpEx.receiptId =
      some { mkDraft inpEx with status := .failed } ∧
    ({ mkDraft inpEx with status := TxReceiptStatus.failed }).sig = none := by
  have h := failed_record_reverts_signature inpEx envOk .errPresent ⟨"sg", "bh", 5⟩ []
    rfl rfl (Or.inr rfl)
  exact ⟨h.1, h.2.1, h.2.2.2.1, h.2.2.2.2.1⟩

/- ## Claim C8 -/

/-- C8: `loadReceipts` is total (every storage outcome yields a list):
a storage exception, absent storage, unparseable JSON and non-array JSON
all yield the empty collection; an entry failing the per-field validation
is dropped without affecting the rest; and every valid entry survives into
the result in normalised form. -/
theorem loadReceipts_total_and_drops_invalid
    (pre post xs : List JsValue) (e g v : JsValue)
    (hnotarr : ∀ ys, v ≠ .arr ys)
    (he : receiptEntryValid e = false)
    (hg : g ∈ xs) (hgv : receiptEntryValid g = true) :
    loadReceipts .getThrew = [] ∧
    loadReceipts (.raw .malformed) = [] ∧
    loadReceipts (.raw .absent) = [] ∧
    safeParseReceipts (.parsed v) = [] ∧
    safeParseReceipts (.parsed (.arr (pre ++ e :: post))) =
      safeParseReceipts (.parsed (.arr (pre ++ post))) ∧
    normalizeReceipt g ∈ safeParseReceipts (.parsed (.arr xs)) := by
  refine ⟨rfl, rfl, rfl, ?_, ?_, ?_⟩
  · cases v with
    | arr ys => exact absurd rfl (hnotarr ys)
    | null => rfl
    | bool b => rfl
    | num q => rfl
    | str s => rfl
    | obj fs => rfl
  · simp [safeParseReceipts, List.filter_append, List.filter_cons, he]
  · exact List.mem_map_of_mem _ (List.mem_filter.mpr ⟨hg, hgv⟩)

/-- C8 witness: a malformed store loads as empty, the invalid bare-number
entry is dropped, and the valid entry survives. -/
theorem loadReceipts_total_and_drops_invalid_witness :
    loadReceipts (.raw .malformed) = [] ∧
    safeParseReceipts (.parsed (.arr ([] ++ badEntry :: []))) =
      safeParseReceipts (.parsed (.arr ([] ++ []))) ∧
    normalizeReceipt goodEntry ∈ safeParseReceipts (.parsed (.arr [badEntry, goodEntry])) := by
  have h := loadReceipts_total_and_drops_invalid [] [] [badEntry, goodEntry]
    badEntry goodEntry (.obj []) (fun ys hy => by cases hy) (by decide)
    (List.mem_cons_of_mem _ (List.mem_cons_self _ _)) (by decide)
  exact ⟨h.2.1, h.2.2.2.2.1, h.2.2.2.2.2⟩

/- ## Claim C10 -/

/-- C10: an entry that passes the per-field validation but whose
`direction` field is neither `"sent"` nor `"received"` (for example
missing) is not dropped: it loads as a receipt whose direction defaults to
`sent`. -/
theorem missing_direction_defaults_to_sent (e : JsValue)
    (hv : receiptEntryValid e = true)
    (hd : propStrIs (getProp e "direction") "sent" = false)
    (hd2 : propStrIs (getProp e "direction") "received" = false) :
    safeParseReceipts (.parsed (.arr [e])) = [normalizeReceipt e] ∧
    (normalizeReceipt e).direction = .sent := by
  constructor
  · simp [safeParseReceipts, List.filter_cons, hv]
  · simp [normalizeReceipt, hd, hd2]

/-- C10 witness: the valid entry with no `direction` field is retained and
its direction is `sent`. -/
theorem missing_direction_defaults_to_sent_witness :
    safeParseReceipts (.parsed (.arr [goodEntry])) = [normalizeReceipt goodEntry] ∧
    (normalizeReceipt goodEntry).direction = .sent :=
  missing_direction_defaults_to_sent goodEntry (by decide) (by decide) (by decide)

/- ## Sync fold lemmas -/

/-- Destructuring of a successful leg match. -/
theorem specLegMatches_iff (t : TokenLeg) :
    specLegMatches t = true ↔ (t.mint = USDC_MINT_DEVNET ∧ 0 < t.amount) := by
  simp [specLegMatches]

/-- A matching leg passes both guard conditions of the loop body. -/
theorem legStep_guard_false (t : TokenLeg) (hm : specLegMatches t = true) :
    ¬ (t.mint = "" ∨ t.mint ≠ USDC_MINT_DEVNET) ∧ ¬ (t.amount ≤ 0) := by
  obtain ⟨hmint, hpos⟩ := (specLegMatches_iff t).mp hm
  refine ⟨?_, not_le.mpr hpos⟩
  rw [hmint]
  decide

/-- A non-matching leg is skipped by the loop body. -/
theorem legStep_skip (wAddr wl : String) (st : SyncState) (t : TokenLeg)
    (hm : specLegMatches t = false) :
    legStep wAddr wl st t = st := by
  unfold legStep
  by_cases h1 : t.mint = USDC_MINT_DEVNET
  · have h2 : t.amount ≤ 0 := by
      by_contra hc
      rw [(specLegMatches_iff t).mpr ⟨h1, not_le.mp hc⟩] at hm
      exact Bool.noConfusion hm
    have hc1 : ¬ (t.mint = "" ∨ t.mint ≠ USDC_MINT_DEVNET) := by
      rw [h1]
      decide
    rw [if_neg hc1, if_pos h2]
  · rw [if_pos (Or.inr h1)]

/-- When no matching leg touches either side of the wallet, the leg loop
adds every matching amount (fallback-inbound) and marks the transaction
involved as soon as one matching leg exists. -/
theorem legStep_fold_fallback (wAddr wl : String) (legs : List TokenLeg)
    (h : ∀ t ∈ legs, specLegMatches t = true →
      jsToLower (fromAnyRaw t) ≠ wl ∧ jsToLower (toAnyRaw t) ≠ wl) :
    ∀ st : SyncState,
      (legs.foldl (legStep wAddr wl) st).net = st.net + sumMatchingAmounts legs ∧
      (legs.foldl (legStep wAddr wl) st).involved =
        (st.involved || legs.any specLegMatches) := by
  induction legs with
  | nil => intro st; simp [sumMatchingAmounts]
  | cons t rest ih =>
    intro st
    have ih' := ih (fun u hu => h u (List.mem_cons_of_mem _ hu))
    by_cases hm : specLegMatches t = true
    · obtain ⟨hf, ht⟩ := h t (List.mem_cons_self _ _) hm
      obtain ⟨hc1, hc2⟩ := legStep_guard_false t hm
      have hstep : legStep wAddr wl st t =
          { st with
              involved := true
              net := st.net + t.amount
              bestFrom := fromAnyRaw t
              bestTo := wAddr } := by
        unfold legStep
        rw [if_neg hc1, if_neg hc2]
        simp [hf, ht]
      rw [List.foldl_cons, hstep]
      obtain ⟨hn, hi⟩ := ih' _
      constructor
      · rw [hn]
        simp only [sumMatchingAmounts, List.map_cons, List.sum_cons, hm, if_true]
        show st.net + t.amount + _ = _
        rw [add_assoc]
      · rw [hi]
        simp [hm]
    · rw [List.foldl_cons, legStep_skip wAddr wl st t (Bool.not_eq_true _ ▸ hm)]
      obtain ⟨hn, hi⟩ := ih' st
      have hmf : specLegMatches t = false := by
        cases hx : specLegMatches t
        · rfl
        · exact absurd hx hm
      constructor
      · rw [hn]
        simp [sumMatchingAmounts, hmf]
      · rw [hi]
        simp [hmf]

/-- Each matching leg contributes a nonnegative amount, so the fallback
net is nonnegative. -/
theorem sumMatchingAmounts_nonneg (legs : List TokenLeg) :
    0 ≤ sumMatchingAmounts legs := by
  unfold sumMatchingAmounts
  apply List.sum_nonneg
  intro x hx
  simp only [List.mem_map] at hx
  obtain ⟨t, _, rfl⟩ := hx
  by_cases hm : specLegMatches t = true
  · obtain ⟨_, hpos⟩ := (specLegMatches_iff t).mp hm
    simp [hm, le_of_lt hpos]
  · simp [hm]

/- ## Claim C4 -/

/-- C4 counterexample: a transaction whose single matching positive leg
touches neither side of the wallet `"w"` is not skipped — the sync
produces a receipt for it. -/
theorem sync_unmatched_tx_not_skipped_cex :
    (∀ t ∈ txAB.tokenTransfers, specLegMatches t = true →
      jsToLower (fromAnyRaw t) ≠ jsToLower "w" ∧ jsToLower (toAnyRaw t) ≠ jsToLower "w") ∧
    (heliusTxToReceipt "w" 0 txAB).isSome = true := by
  exact ⟨by decide, by decide⟩

/-- C4 amended: a transaction carrying at least one matching positive leg
of the supported mint is never skipped; when no such leg has the wallet as
its source or destination, the fallback branch treats every matching leg
as inbound, so the receipt exists with direction `received` and amount
equal to the sum of the matching amounts. -/
theorem sync_fallback_merges_unmatched_tx (wAddr : String) (now : ℚ) (tx : HeliusTx)
    (hsig : tx.signature ≠ "")
    (hmatch : tx.tokenTransfers.any specLegMatches = true)
    (hnoside : ∀ t ∈ tx.tokenTransfers, specLegMatches t = true →
      jsToLower (fromAnyRaw t) ≠ jsToLower wAddr ∧ jsToLower (toAnyRaw t) ≠ jsToLower wAddr) :
    ∃ r, heliusTxToReceipt wAddr now tx = some r ∧ r.direction = .received ∧
      r.amountUi = jsNumToString (mathAbs (sumMatchingAmounts tx.tokenTransfers)) := by
  have hne : tx.tokenTransfers ≠ [] := by
    intro hc
    rw [hc] at hmatch
    simp at hmatch
  obtain ⟨hn, hi⟩ := legStep_fold_fallback wAddr (jsToLower wAddr) tx.tokenTransfers hnoside
    ⟨0, false, "", ""⟩
  rw [zero_add] at hn
  have hinv : (tx.tokenTransfers.foldl (legStep wAddr (jsToLower wAddr)) ⟨0, false, "", ""⟩).involved = true := by
    rw [hi, hmatch]
    rfl
  have hnonneg : 0 ≤ (tx.tokenTransfers.foldl (legStep wAddr (jsToLower wAddr)) ⟨0, false, "", ""⟩).net := by
    rw [hn]
    exact sumMatchingAmounts_nonneg _
  simp only [heliusTxToReceipt]
  rw [if_neg hsig, if_neg hne, hinv]
  rw [if_neg (by decide : ¬ (true = false))]
  refine ⟨_, rfl, ?_, ?_⟩
  · show (if (0:ℚ) ≤ _ then TxReceiptDirection.received else .sent) = .received
    rw [if_pos hnonneg]
  · show jsNumToString (mathAbs _) = _
    rw [hn]

/-- C4 witness: the concrete neither-side transaction is merged with
direction `received` and the fallback-summed amount. -/
theorem sync_fallback_merges_unmatched_tx_witness :
    ∃ r, heliusTxToReceipt "w" 0 txAB = some r ∧ r.direction = .received ∧
      r.amountUi = jsNumToString (mathAbs (sumMatchingAmounts txAB.tokenTransfers)) :=
  sync_fallback_merges_unmatched_tx "w" 0 txAB (by decide) (by decide) (by decide)

/-- When every matching leg touches exactly one side of the wallet, the
leg loop computes exactly the specified signed net. -/
theorem legStep_fold_oneside (wAddr wl : String) (legs : List TokenLeg)
    (h : ∀ t ∈ legs, specLegMatches t = true →
      (jsToLower (toAnyRaw t) = wl ∧ jsToLower (fromAnyRaw t) ≠ wl) ∨
      (jsToLower (toAnyRaw t) ≠ wl ∧ jsToLower (fromAnyRaw t) = wl)) :
    ∀ st : SyncState,
      (legs.foldl (legStep wAddr wl) st).net = st.net + specNetLegs wl legs ∧
      (legs.foldl (legStep wAddr wl) st).involved =
        (st.involved || legs.any specLegMatches) := by
  induction legs with
  | nil => intro st; simp [specNetLegs]
  | cons t rest ih =>
    intro st
    have ih' := ih (fun u hu => h u (List.mem_cons_of_mem _ hu))
    by_cases hm : specLegMatches t = true
    · obtain ⟨hc1, hc2⟩ := legStep_guard_false t hm
      rcases h t (List.mem_cons_self _ _) hm with ⟨htIn, hfNot⟩ | ⟨htNot, hfIs⟩
      · have hstep : legStep wAddr wl st t =
            { st with
                involved := true
                net := st.net + t.amount
                bestFrom := fromAnyRaw t
                bestTo := wAddr } := by
          unfold legStep
          rw [if_neg hc1, if_neg hc2]
          simp [htIn, hfNot]
        rw [List.foldl_cons, hstep]
        obtain ⟨hn, hi⟩ := ih' _
        constructor
        · rw [hn]
          simp only [specNetLegs, List.map_cons, List.sum_cons, hm, if_true, htIn]
          show st.net + t.amount + _ = _
          rw [add_assoc]
        · rw [hi]
          simp [hm]
      · have hstep : legStep wAddr wl st t =
            { st with
                involved := true
                net := st.net - t.amount
                bestFrom := wAddr
                bestTo := toAnyRaw t } := by
          unfold legStep
          rw [if_neg hc1, if_neg hc2]
          simp [htNot, hfIs]
        rw [List.foldl_cons, hstep]
        obtain ⟨hn, hi⟩ := ih' _
        constructor
        · rw [hn]
          simp only [specNetLegs, List.map_cons, List.sum_cons, hm, htNot, hfIs, if_true, if_false]
          show st.net - t.amount + _ = _
          rw [sub_eq_add_neg, add_assoc]
        · rw [hi]
          simp [hm]
    · rw [List.foldl_cons, legStep_skip wAddr wl st t (Bool.not_eq_true _ ▸ hm)]
      obtain ⟨hn, hi⟩ := ih' st
      have hmf : specLegMatches t = false := by
        cases hx : specLegMatches t
        · rfl
        · exact absurd hx hm
      constructor
      · rw [hn]
        simp [specNetLegs, hmf]
      · rw [hi]
        simp [hmf]

/- ## Claim C6 -/

/-- C6: over a transaction whose matching legs each touch exactly one side
of the wallet, the sync accumulates the signed net (destination-side legs
add, source-side legs subtract), derives direction `received` exactly when
the net is nonnegative, and stores the absolute net as the amount. -/
theorem sync_signed_net_direction (wAddr : String) (now : ℚ) (tx : HeliusTx)
    (hsig : tx.signature ≠ "")
    (hmatch : tx.tokenTransfers.any specLegMatches = true)
    (hside : ∀ t ∈ tx.tokenTransfers, specLegMatches t = true →
      (jsToLower (toAnyRaw t) = jsToLower wAddr ∧ jsToLower (fromAnyRaw t) ≠ jsToLower wAddr) ∨
      (jsToLower (toAnyRaw t) ≠ jsToLower wAddr ∧ jsToLower (fromAnyRaw t) = jsToLower wAddr)) :
    ∃ r, heliusTxToReceipt wAddr now tx = some r ∧
      r.direction = (if 0 ≤ specNetLegs (jsToLower wAddr) tx.tokenTransfers
        then TxReceiptDirection.received else .sent) ∧
      r.amountUi = jsNumToString (mathAbs (specNetLegs (jsToLower wAddr) tx.tokenTransfers)) := by
  have hne : tx.tokenTransfers ≠ [] := by
    intro hc
    rw [hc] at hmatch
    simp at hmatch
  obtain ⟨hn, hi⟩ := legStep_fold_oneside wAddr (jsToLower wAddr) tx.tokenTransfers hside
    ⟨0, false, "", ""⟩
  rw [zero_add] at hn
  have hinv : (tx.tokenTransfers.foldl (legStep wAddr (jsToLower wAddr)) ⟨0, false, "", ""⟩).involved = true := by
    rw [hi, hmatch]
    rfl
  simp only [heliusTxToReceipt]
  rw [if_neg hsig, if_neg hne, hinv]
  rw [if_neg (by decide : ¬ (true = false))]
  refine ⟨_, rfl, ?_, ?_⟩
  · show (if (0:ℚ) ≤ _ then TxReceiptDirection.received else .sent) = _
    rw [hn]
  · show jsNumToString (mathAbs _) = _
    rw [hn]

/-- C6 witness: end-to-end scenario 3 — a 10-unit leg from the wallet to a
counterparty plus a 3-unit leg back nets to `-7`, producing a `sent`
receipt with amount `"7"`. -/
theorem sync_signed_net_direction_witness :
    specNetLegs (jsToLower "w") txWC.tokenTransfers = (-7 : ℚ) ∧
    ∃ r, heliusTxToReceipt "w" 0 txWC = some r ∧
      r.direction = .sent ∧ r.amountUi = "7" := by
  have hspec : specNetLegs (jsToLower "w") txWC.tokenTransfers = (-7 : ℚ) := by
    simp only [specNetLegs, txWC, List.map_cons, List.map_nil, List.sum_cons, List.sum_nil]
    rw [if_pos (by decide : specLegMatches legWtoC = true),
      if_pos (by decide : specLegMatches legCtoW = true),
      if_neg (by decide : ¬ jsToLower (toAnyRaw legWtoC) = jsToLower "w"),
      if_pos (by decide : jsToLower (fromAnyRaw legWtoC) = jsToLower "w"),
      if_pos (by decide : jsToLower (toAnyRaw legCtoW) = jsToLower "w")]
    show -(10 : ℚ) + (3 + 0) = -7
    norm_num
  obtain ⟨r, hr, hdir, hamt⟩ := sync_signed_net_direction "w" 0 txWC
    (by decide) (by decide) (by decide)
  rw [hspec] at hdir hamt
  rw [if_neg (by norm_num : ¬ ((0:ℚ) ≤ -7))] at hdir
  have hab : mathAbs (-7 : ℚ) = 7 := by
    rw [mathAbs, if_pos (by norm_num : (-7:ℚ) < 0)]
    norm_num
  rw [hab] at hamt
  have h7 : jsNumToString (7 : ℚ) = "7" := by
    simp only [jsNumToString, Rat.num_ofNat, Rat.den_ofNat]
    norm_num
    rfl
  rw [h7] at hamt
  exact ⟨hspec, r, hr, hdir, hamt⟩

/- ## Digit-string arithmetic for Claim C3 -/

/-- Folding the digit accumulator from an arbitrary start. -/
theorem digitsVal_foldl (l : List Char) (acc : Nat) :
    l.foldl (fun a c => 10 * a + (c.toNat - 48)) acc = acc * 10 ^ l.length + digitsVal l := by
  induction l generalizing acc with
  | nil => simp [digitsVal]
  | cons c l ih =>
    show l.foldl _ (10 * acc + (c.toNat - 48)) = _
    rw [ih]
    have hd : digitsVal (c :: l) = (c.toNat - 48) * 10 ^ l.length + digitsVal l := by
      show l.foldl _ (10 * 0 + (c.toNat - 48)) = _
      rw [ih]
      simp
    rw [hd]
    simp [List.length_cons, pow_succ]
    ring

/-- Peeling one digit. -/
theorem digitsVal_cons (c : Char) (l : List Char) :
    digitsVal (c :: l) = (c.toNat - 48) * 10 ^ l.length + digitsVal l := by
  show l.foldl _ (10 * 0 + (c.toNat - 48)) = _
  rw [digitsVal_foldl]
  simp

/-- Concatenation of digit strings multiplies by the length of the
suffix. -/
theorem digitsVal_append (a b : List Char) :
    digitsVal (a ++ b) = digitsVal a * 10 ^ b.length + digitsVal b := by
  induction a with
  | nil => simp [digitsVal]
  | cons c a ih =>
    rw [List.cons_append, digitsVal_cons, ih, digitsVal_cons]
    simp [List.length_append, pow_add]
    ring

/-- Trailing zeros contribute nothing. -/
theorem digitsVal_replicate_zero (n : Nat) :
    digitsVal (List.replicate n '0') = 0 := by
  induction n with
  | zero => rfl
  | succ n ih =>
    rw [List.replicate_succ, digitsVal_cons, ih]
    simp

/-- A decimal digit has value below ten. -/
theorem digit_toNat_lt (c : Char) (h : c.isDigit = true) : c.toNat - 48 < 10 := by
  unfold Char.isDigit at h
  have h9 : c.val ≤ 57 := of_decide_eq_true (Bool.and_elim_right h)
  have h2 : c.val.toBitVec.toNat ≤ (57 : UInt32).toBitVec.toNat :=
    BitVec.le_def.mp (UInt32.le_def.mp h9)
  have h4 : (57 : UInt32).toBitVec.toNat = 57 := rfl
  have h3 : c.toNat ≤ 57 := by
    rw [h4] at h2
    exact h2
  omega

/-- A digit string is below the corresponding power of ten. -/
theorem digitsVal_lt (l : List Char) (h : ∀ c ∈ l, c.isDigit = true) :
    digitsVal l < 10 ^ l.length := by
  induction l with
  | nil => simp [digitsVal]
  | cons c l ih =>
    rw [digitsVal_cons]
    have hc := digit_toNat_lt c (h c (List.mem_cons_self _ _))
    have hl := ih (fun u hu => h u (List.mem_cons_of_mem _ hu))
    calc (c.toNat - 48) * 10 ^ l.length + digitsVal l
        ≤ 9 * 10 ^ l.length + digitsVal l := by
          have : c.toNat - 48 ≤ 9 := by omega
          exact Nat.add_le_add_right (Nat.mul_le_mul_right _ this) _
      _ < 9 * 10 ^ l.length + 10 ^ l.length := by omega
      _ = 10 ^ (l.length + 1) := by ring
    

/-- The value of the right-padded-then-truncated fractional digit string is
exactly the floor of the fractional value scaled by `10 ^ d`. -/
theorem padded_floor (f : List Char) (hd : ∀ c ∈ f, c.isDigit = true) (d : Nat) :
    ((digitsVal ((f ++ List.replicate d '0').take d) : ℤ)) =
      ⌊((digitsVal f : ℚ) / 10 ^ f.length) * 10 ^ d⌋ := by
  by_cases h : f.length ≤ d
  · have htake : (f ++ List.replicate d '0').take d = f ++ List.replicate (d - f.length) '0' := by
      rw [List.take_append_eq_append_take, List.take_of_length_le h, List.take_replicate]
      rw [Nat.min_eq_left (Nat.sub_le _ _)]
    rw [htake, digitsVal_append, digitsVal_replicate_zero, List.length_replicate]
    have hcast : ((digitsVal f : ℚ) / 10 ^ f.length) * 10 ^ d
        = ((digitsVal f * 10 ^ (d - f.length) : ℕ) : ℚ) := by
      push_cast
      rw [div_mul_eq_mul_div, div_eq_iff (by positivity : ((10:ℚ) ^ f.length) ≠ 0)]
      rw [mul_assoc, ← pow_add]
      congr 2
      omega
    rw [hcast, Int.floor_natCast]
    push_cast
    ring
  · push_neg at h
    have htake : (f ++ List.replicate d '0').take d = f.take d := by
      rw [List.take_append_eq_append_take]
      simp [Nat.sub_eq_zero_of_le (le_of_lt h)]
    rw [htake]
    have hlen2 : (f.drop d).length = f.length - d := List.length_drop _ _
    have hF : digitsVal f = digitsVal (f.take d) * 10 ^ (f.length - d) + digitsVal (f.drop d) := by
      conv_lhs => rw [← List.take_append_drop d f]
      rw [digitsVal_append, hlen2]
    have hlt : digitsVal (f.drop d) < 10 ^ (f.length - d) := by
      have := digitsVal_lt (f.drop d) (fun c hc => hd c (List.mem_of_mem_drop hc))
      rwa [hlen2] at this
    have hp : (10:ℚ) ^ f.length = 10 ^ (f.length - d) * 10 ^ d := by
      rw [← pow_add]
      congr 1
      omega
    have hval : ((digitsVal f : ℚ) / 10 ^ f.length) * 10 ^ d
        = ((digitsVal (f.take d) : ℤ) : ℚ) + (digitsVal (f.drop d) : ℚ) / 10 ^ (f.length - d) := by
      rw [hF, hp]
      push_cast
      have h10d : ((10:ℚ) ^ d) ≠ 0 := by positivity
      have h10e : ((10:ℚ) ^ (f.length - d)) ≠ 0 := by positivity
      field_simp
      ring
    rw [hval, Int.floor_int_add]
    have hx0 : (0:ℚ) ≤ (digitsVal (f.drop d) : ℚ) / 10 ^ (f.length - d) := by positivity
    have hx1 : (digitsVal (f.drop d) : ℚ) / 10 ^ (f.length - d) < 1 := by
      rw [div_lt_one (by positivity)]
      exact_mod_cast hlt
    rw [Int.floor_eq_zero_iff.mpr ⟨hx0, hx1⟩]
    simp

/- ## Claim C3 -/

/-- C3 (amended part): for every input whose trimmed text matches
`^\d+(\.\d+)?$`, `uiToBaseUnits` with six decimals returns exactly the
floor of the parsed decimal value scaled by `10 ^ 6` (right-pad then
truncate, no rounding); any non-matching input fails with the
invalid-format error. -/
theorem uiToBaseUnits_floor_exact (amountUi : String) :
    (matchesAmount (jsTrimChars amountUi.data) = true →
      ∃ n, uiToBaseUnits amountUi 6 = .ok n ∧
        (n : ℤ) = ⌊parseDecimalQ (jsTrimChars amountUi.data) * 10 ^ 6⌋) ∧
    (matchesAmount (jsTrimChars amountUi.data) = false →
      uiToBaseUnits amountUi 6 = .error "Invalid amount") := by
  constructor
  · intro hm
    unfold uiToBaseUnits
    rw [if_pos hm]
    refine ⟨_, rfl, ?_⟩
    unfold parseDecimalQ
    rcases hsp : splitDotAll (jsTrimChars amountUi.data) with _ | ⟨w, rest⟩
    · unfold matchesAmount at hm
      rw [hsp] at hm
      simp at hm
    · rcases rest with _ | ⟨f, rest2⟩
      · simp only [List.headD_cons, List.drop_succ_cons, List.drop_zero, List.headD_nil,
          List.drop_nil]
        have hz : digitsVal ((([] : List Char) ++ List.replicate 6 '0').take 6) = 0 := rfl
        rw [hz]
        have hnil : digitsVal ([] : List Char) = 0 := rfl
        rw [hnil]
        norm_num
        have hcast : ((digitsVal w : ℚ)) * 1000000 = ((digitsVal w * 1000000 : ℕ) : ℚ) := by
          push_cast
          ring
        rw [hcast, Int.floor_natCast]
        push_cast
        ring
      · rcases rest2 with _ | ⟨x, rest3⟩
        · have hfd : ∀ c ∈ f, c.isDigit = true := by
            unfold matchesAmount at hm
            rw [hsp] at hm
            simp only [Bool.and_eq_true, List.all_eq_true, decide_eq_true_eq] at hm
            exact fun c hc => hm.2 c hc
          simp only [List.headD_cons, List.drop_succ_cons, List.drop_zero]
          rw [add_mul]
          rw [show ((digitsVal w : ℚ)) * 10 ^ 6 = (((digitsVal w * 10 ^ 6 : ℕ) : ℤ) : ℚ) by
            push_cast; ring]
          rw [Int.floor_int_add]
          rw [← padded_floor f hfd 6]
          push_cast
          ring
        · unfold matchesAmount at hm
          rw [hsp] at hm
          simp at hm
  · intro hmf
    unfold uiToBaseUnits
    simp [hmf]

/-- C3 counterexample: the final `uiToBaseUnits` has no non-positive
check — the input `"0"` succeeds with result `0` instead of failing with
a non-positive-amount error. -/
theorem uiToBaseUnits_zero_cex : uiToBaseUnits "0" 6 = .ok 0 := rfl

/-- C3 witness: the trimmed input `"1.5"` matches the pattern and converts
to the floor of `1.5 * 10 ^ 6`; the extra conjuncts pin the concrete
values `1500000` and `1234567` and the invalid-format failure. -/
theorem uiToBaseUnits_floor_exact_witness :
    (∃ n, uiToBaseUnits "1.5" 6 = .ok n ∧
      (n : ℤ) = ⌊parseDecimalQ (jsTrimChars "1.5".data) * 10 ^ 6⌋) ∧
    uiToBaseUnits "1.5" 6 = .ok 1500000 ∧
    uiToBaseUnits "1.23456789" 6 = .ok 1234567 ∧
    uiToBaseUnits "abc" 6 = .error "Invalid amount" :=
  ⟨(uiToBaseUnits_floor_exact "1.5").1 (by decide), rfl, rfl,
    (uiToBaseUnits_floor_exact "abc").2 (by decide)⟩
